import Mathlib

/-!
Verification of the AppFlowy server core against its specification.

The development shallowly embeds the relevant parts of the source:

* `libs/client-api/src/collab_sync/sink.rs` — the per-client outbound sink
  (`CollabSink`): message-id allocation, init-sync queueing, acknowledgement,
  and the ack-timeout table.
* `libs/realtime/src/collaborate/group.rs` — collab groups: inactivity,
  the periodic sweeper tick, and subscription.
* `libs/database/src/collab/collab_db_ops.rs` — the persistent collab table
  (`insert_into_af_collab`) and the snapshot store
  (`create_snapshot_and_maintain_limit`).

Stateful Rust code becomes explicit state passing over structures; fallible
code returns `Except`; SQL tables become lists of rows; machine counters are
`Nat` with an explicit wrap at `2 ^ 64` where the source uses `u64`.
-/

/-! ## Durations (std::time::Duration, millisecond precision suffices here) -/

structure Duration where
  millis : Nat
deriving DecidableEq, Repr

def Duration.from_secs (s : Nat) : Duration :=
  ⟨1000 * s⟩

/-! ## Client and server collab messages

The message types live in the `realtime_entity` crate, which is not part of
the source tree; only their interface is used by `sink.rs`. -/

/-- Modelled from the spec: a client collab message has a kind with priority
Init > Update > Awareness and an opaque payload (`realtime_entity::collab_msg`
is not in the source tree). -/
inductive ClientMsgKind
  | initSync
  | updateSync
  | awareness
deriving DecidableEq, Repr

/-- Modelled from the spec: the pending-message payload as seen by the sink. -/
structure ClientCollabMessage where
  kind : ClientMsgKind
  payload : List Nat
deriving DecidableEq, Repr

/-- Modelled from the spec: `is_init_msg` is true exactly for init-sync
messages. -/
def ClientCollabMessage.is_init_msg (m : ClientCollabMessage) : Bool :=
  match m.kind with
  | ClientMsgKind.initSync => true
  | _ => false

/-- Modelled from the spec: priority Init > Update > Awareness. -/
def ClientMsgKind.priority : ClientMsgKind → Nat
  | ClientMsgKind.initSync => 2
  | ClientMsgKind.updateSync => 1
  | ClientMsgKind.awareness => 0

/-- Modelled from the spec and the source comment in `sink.rs`: a server
message carries a msg-id unless it is a broadcast or an awareness message. -/
inductive ServerCollabMessage
  | initSync (id : Nat)
  | ack (id : Nat)
  | broadcast (payload : List Nat)
  | awareness (payload : List Nat)
deriving DecidableEq, Repr

/-- Modelled from the spec: `msg_id` is `None` iff the message is a broadcast
or an awareness message. -/
def ServerCollabMessage.msg_id : ServerCollabMessage → Option Nat
  | ServerCollabMessage.initSync id => some id
  | ServerCollabMessage.ack id => some id
  | ServerCollabMessage.broadcast _ => none
  | ServerCollabMessage.awareness _ => none

/-! ## The sink queue (`sink_queue.rs`, not in the source tree) -/

/-- State of a pending message, from the spec:
Pending, Processing, Done, Timeout. -/
inductive MessageState
  | pending
  | processing
  | done
  | timeout
deriving DecidableEq, Repr

/-- A pending message in the sink queue: msg-id, payload, state. -/
structure PendingMessage where
  msg : ClientCollabMessage
  msg_id : Nat
  state : MessageState
deriving DecidableEq, Repr

/-- Modelled from the spec: `set_state` on a pending message; the transition
to Done is valid only from Processing (an acknowledge marks the head Done
only when its state is Processing); the returned flag reports whether the
message is Done as a result of this call. -/
def PendingMessage.set_state (p : PendingMessage) (_uid : Int) (target : MessageState) :
    PendingMessage × Bool :=
  match target, p.state with
  | MessageState.done, MessageState.processing =>
      ({ p with state := MessageState.done }, true)
  | MessageState.done, _ => (p, false)
  | s, _ => ({ p with state := s }, false)

/-- Modelled from the spec: the sink queue is a priority queue of pending
messages (Init > Update > Awareness), kept here as a list sorted by
decreasing priority; the head is the highest-priority message. -/
abbrev SinkQueue := List PendingMessage

/-- Modelled from the spec: stable insertion by priority — the new message is
placed before the first queued message of strictly lower priority. -/
def SinkQueue.insertByPriority (p : PendingMessage) : SinkQueue → SinkQueue
  | [] => [p]
  | q :: rest =>
      if q.msg.kind.priority < p.msg.kind.priority then p :: q :: rest
      else q :: SinkQueue.insertByPriority p rest

/-- Modelled from the spec: `push_msg` wraps the payload with its msg-id in a
fresh pending message (state Pending) and inserts it by priority. -/
def SinkQueue.push_msg (q : SinkQueue) (msg_id : Nat) (m : ClientCollabMessage) : SinkQueue :=
  SinkQueue.insertByPriority ⟨m, msg_id, MessageState.pending⟩ q

/-- Modelled from the spec: `peek` returns the head of the priority queue. -/
def SinkQueue.peek (q : SinkQueue) : Option PendingMessage :=
  q.head?

/-- Modelled from the spec: `clear` drops all pending messages. -/
def SinkQueue.clear (_q : SinkQueue) : SinkQueue :=
  []

/-! ## The collab sink (`sink.rs`) -/

/-- The bound of the `u64` msg-id counter (`AtomicU64::fetch_add` wraps). -/
def u64Bound : Nat := 2 ^ 64

/-- `DefaultMsgIdCounter::next`: `fetch_add(1)` returns the old value and
stores the incremented one, wrapping at `2 ^ 64`. -/
def DefaultMsgIdCounter.next (c : Nat) : Nat × Nat :=
  (c, (c + 1) % u64Bound)

/-- The purely functional state of a `CollabSink`: the owning uid, the
msg-id counter and the queue of pending messages. -/
structure CollabSink where
  uid : Int
  msg_id_counter : Nat
  queue : SinkQueue

/-- `CollabSink::new` starts with a default (zero) msg-id counter and an
empty queue. -/
def CollabSink.new (uid : Int) : CollabSink :=
  ⟨uid, 0, []⟩

/-- `CollabSink::queue_msg`: allocate a msg-id from the counter, build the
message with it, push it into the queue. -/
def CollabSink.queue_msg (s : CollabSink) (f : Nat → ClientCollabMessage) : CollabSink :=
  let r := DefaultMsgIdCounter.next s.msg_id_counter
  { s with
    msg_id_counter := r.2,
    queue := SinkQueue.push_msg s.queue r.1 (f r.1) }

/-- `CollabSink::queue_init_sync`: if the queue head is already an init
message, return without touching the queue; otherwise clear all pending
messages, allocate a msg-id and push the freshly built message. -/
def CollabSink.queue_init_sync (s : CollabSink) (f : Nat → ClientCollabMessage) : CollabSink :=
  match SinkQueue.peek s.queue with
  | some p =>
      if p.msg.is_init_msg then s
      else
        let cleared := SinkQueue.clear s.queue
        let r := DefaultMsgIdCounter.next s.msg_id_counter
        { s with
          msg_id_counter := r.2,
          queue := SinkQueue.push_msg cleared r.1 (f r.1) }
  | none =>
      let cleared := SinkQueue.clear s.queue
      let r := DefaultMsgIdCounter.next s.msg_id_counter
      { s with
        msg_id_counter := r.2,
        queue := SinkQueue.push_msg cleared r.1 (f r.1) }

/-- `CollabSink::can_queue_init_sync`: true iff the queue head is not an init
message (an empty queue can accept an init). -/
def CollabSink.can_queue_init_sync (s : CollabSink) : Bool :=
  match SinkQueue.peek s.queue with
  | some p => !p.msg.is_init_msg
  | none => true

/-- `CollabSink::ack_msg`: a server message without a msg-id is reported as
handled and leaves the queue alone; otherwise, if the queue is empty or the
head's msg-id differs from the acked one the ack is dropped (`false`),
else the head is asked to transition to Done and the result of that
transition is reported. -/
def CollabSink.ack_msg (s : CollabSink) (m : ServerCollabMessage) : CollabSink × Bool :=
  match m.msg_id with
  | none => (s, true)
  | some msg_id =>
      match s.queue with
      | [] => (s, false)
      | p :: rest =>
          if p.msg_id ≠ msg_id then (s, false)
          else
            let r := p.set_state s.uid MessageState.done
            ({ s with queue := r.1 :: rest }, r.2)

/-- `calculate_timeout`: the ack timeout as a function of the payload length
(`sink.rs`). -/
def calculate_timeout (payload_len : Nat) (d : Duration) : Duration :=
  if payload_len ≤ 40959 then d
  else if payload_len ≤ 1048576 then Duration.from_secs 10
  else if payload_len ≤ 2097152 then Duration.from_secs 20
  else if payload_len ≤ 4194304 then Duration.from_secs 50
  else Duration.from_secs 160

/-! ## Sink operation traces (for the msg-id monotonicity invariant) -/

/-- An enqueue-style operation on a sink: either an ordinary `queue_msg` or a
`queue_init_sync`, each carrying its message builder. -/
inductive SinkOp
  | msg (f : Nat → ClientCollabMessage)
  | initSync (f : Nat → ClientCollabMessage)

/-- One sink operation: the resulting sink state together with the list of
msg-ids the operation allocated from the counter (`queue_msg` always
allocates one; `queue_init_sync` allocates one exactly when the head is not
already an init message). -/
def sinkStep (s : CollabSink) : SinkOp → CollabSink × List Nat
  | SinkOp.msg f => (s.queue_msg f, [s.msg_id_counter])
  | SinkOp.initSync f =>
      (s.queue_init_sync f,
       if s.can_queue_init_sync then [s.msg_id_counter] else [])

/-- The sequence of msg-ids allocated along a run of sink operations. -/
def sinkTrace (s : CollabSink) : List SinkOp → List Nat
  | [] => []
  | op :: ops => (sinkStep s op).2 ++ sinkTrace (sinkStep s op).1 ops

/-! ## Collab kinds (`collab_entity::CollabType`, external crate) -/

/-- The six collab kinds, from the spec data model (the `collab_entity`
crate itself is not in the source tree). -/
inductive CollabType
  | Document
  | Database
  | WorkspaceDatabase
  | Folder
  | DatabaseRow
  | UserAwareness
deriving DecidableEq, Repr

/-- Modelled from the spec: the numeric partition key is an injective
encoding of the kind (`CollabType::value`, external crate). -/
def CollabType.value : CollabType → Int
  | CollabType.Document => 0
  | CollabType.Database => 1
  | CollabType.WorkspaceDatabase => 2
  | CollabType.Folder => 3
  | CollabType.DatabaseRow => 4
  | CollabType.UserAwareness => 5

/-! ## Association-list maps (the shallow embedding of `DashMap`) -/

def mapLookup {κ β : Type} [DecidableEq κ] (k : κ) : List (κ × β) → Option β
  | [] => none
  | e :: rest => if e.1 = k then some e.2 else mapLookup k rest

def mapErase {κ β : Type} [DecidableEq κ] (k : κ) (m : List (κ × β)) : List (κ × β) :=
  m.filter (fun e => decide (e.1 ≠ k))

/-! ## Collab groups (`group.rs`) -/

/-- A subscription handle; `stop` is observable through the `stopped` flag. -/
structure Subscription where
  sub_id : Nat
  stopped : Bool
deriving DecidableEq, Repr

def Subscription.stop (s : Subscription) : Subscription :=
  { s with stopped := true }

/-- Modelled from the spec: a realtime principal is identified by uid and
device-id; distinct connections of the same principal differ in their
session (`RealtimeUser` is a trait whose implementations are not in the
source tree). -/
structure RtUser where
  uid : Int
  device_id : String
  session_id : Nat
deriving DecidableEq, Repr

abbrev UserDevice := Int × String

/-- Modelled from the spec: `user_device` is the (uid, device-id) pair of
the principal. -/
def RtUser.user_device (u : RtUser) : UserDevice :=
  (u.uid, u.device_id)

/-- The state of one `CollabGroup`: its kind, the instant of last
modification (seconds), the subscriber map keyed by user, and the
user-by-user-device map. -/
structure GroupState where
  collab_type : CollabType
  modified_at : Nat
  subscribers : List (RtUser × Subscription)
  user_by_user_device : List (UserDevice × RtUser)
deriving DecidableEq, Repr

/-- `CollabGroup::timeout_secs`: kind-specific eviction timeout in seconds. -/
def GroupState.timeout_secs (g : GroupState) : Nat :=
  match g.collab_type with
  | CollabType.Document => 10 * 60
  | CollabType.Database | CollabType.DatabaseRow => 60 * 60
  | CollabType.WorkspaceDatabase | CollabType.Folder | CollabType.UserAwareness => 2 * 60 * 60

/-- `CollabGroup::is_inactive`: the elapsed seconds since `modified_at`
exceed the kind timeout (`Instant::elapsed` cannot be negative, matching
truncated subtraction on `Nat`). -/
def GroupState.is_inactive (g : GroupState) (now : Nat) : Bool :=
  decide (now - g.modified_at > g.timeout_secs)

/-- `CollabGroup::subscribe`: remove (and stop) the previous subscriber
registered under the same user-device, if any, then insert the per-device
entry and the new subscription. The stopped old subscription, when one
existed, is returned for observation. -/
def GroupState.subscribe (g : GroupState) (user : RtUser) (sub : Subscription) :
    GroupState × Option Subscription :=
  let user_device := user.user_device
  match mapLookup user_device g.user_by_user_device with
  | some old =>
      let devs := mapErase user_device g.user_by_user_device
      let stopped := (mapLookup old g.subscribers).map Subscription.stop
      let subs := mapErase old g.subscribers
      ({ g with
         subscribers := (user, sub) :: mapErase user subs,
         user_by_user_device := (user_device, user) :: mapErase user_device devs },
       stopped)
  | none =>
      ({ g with
         subscribers := (user, sub) :: mapErase user g.subscribers,
         user_by_user_device := (user_device, user) :: mapErase user_device g.user_by_user_device },
       none)

/-! ## The group registry and the sweeper tick (`CollabGroupControl`) -/

/-- The loop body of `CollabGroupControl::tick`: scan the registry in order,
collect the object-ids of inactive groups, and break out of the scan as soon
as the collected list has grown past 5 entries. -/
def collectInactive (now : Nat) : List (String × GroupState) → List String → List String
  | [], acc => acc
  | e :: rest, acc =>
      if e.2.is_inactive now then
        if (acc ++ [e.1]).length > 5 then acc ++ [e.1]
        else collectInactive now rest (acc ++ [e.1])
      else collectInactive now rest acc

/-- The object-ids a single `CollabGroupControl::tick` removes. -/
def tickRemoved (reg : List (String × GroupState)) (now : Nat) : List String :=
  collectInactive now reg []

/-- The registry after a single `CollabGroupControl::tick`: every collected
inactive group is removed from the map. -/
def tick (reg : List (String × GroupState)) (now : Nat) : List (String × GroupState) :=
  reg.filter (fun e => decide (e.1 ∉ tickRemoved reg now))

/-! ## The persistent collab table (`collab_db_ops.rs`) -/

/-- A universally unique identifier, abstracted (the `uuid` crate is
external; `Uuid::from_str` on the caller-supplied workspace-id string is
assumed to succeed, so parameters carry the parsed value). -/
abbrev Uuid := Nat

/-- The error type of the database layer; `insert_into_af_collab` uses the
`Internal` kind for the workspace-id mismatch. -/
inductive AppError
  | Internal (msg : String)
deriving DecidableEq, Repr

/-- Modelled from the spec: the parameters of a collab insert
(`database_entity::dto::InsertCollabParams`, not in the source tree):
object-id, encoded collab bytes, workspace-id and kind. -/
structure InsertCollabParams where
  object_id : String
  encoded_collab_v1 : List Nat
  workspace_id : Uuid
  collab_type : CollabType
deriving DecidableEq, Repr

/-- A row of the `af_collab` table (keyed by `oid`). -/
structure AFCollabRow where
  oid : String
  blob : List Nat
  len : Int
  partition_key : Int
  encrypt : Int
  owner_uid : Int
  workspace_id : Uuid
deriving DecidableEq, Repr

/-- A row of the `af_collab_member` table (keyed by `(uid, oid)`). -/
structure AFCollabMemberRow where
  uid : Int
  oid : String
  permission_id : Int
deriving DecidableEq, Repr

/-- The database state `insert_into_af_collab` reads and writes: the collab
table, the member table, and the permission-id the seeded
`af_role_permissions`/`af_roles` join yields for the Owner role. -/
structure DbState where
  af_collab : List AFCollabRow
  af_collab_member : List AFCollabMemberRow
  owner_permission_id : Int
deriving DecidableEq, Repr

/-- `SELECT workspace_id FROM af_collab WHERE oid = $1` (`fetch_optional`;
`oid` is the key, so at most one row matches). -/
def findCollab (t : List AFCollabRow) (oid : String) : Option AFCollabRow :=
  t.find? (fun r => r.oid == oid)

/-- `INSERT INTO af_collab_member .. ON CONFLICT (uid, oid) DO UPDATE SET
permission_id = excluded.permission_id`. -/
def upsertMember (t : List AFCollabMemberRow) (uid : Int) (oid : String) (pid : Int) :
    List AFCollabMemberRow :=
  if t.any (fun m => m.uid == uid && m.oid == oid) then
    t.map (fun m =>
      if m.uid == uid && m.oid == oid then { m with permission_id := pid } else m)
  else t ++ [⟨uid, oid, pid⟩]

/-- `insert_into_af_collab`: look up the stored workspace-id for the
object-id; update the row when it matches the given workspace-id, fail with
an internal error when it differs, and otherwise insert the owner membership
row followed by the new collab row. An error means the surrounding
transaction is rolled back, so no state accompanies it. -/
def insert_into_af_collab (db : DbState) (uid : Int) (params : InsertCollabParams) :
    Except AppError DbState :=
  let encrypt : Int := 0
  let partition_key := params.collab_type.value
  match findCollab db.af_collab params.object_id with
  | some row =>
      if row.workspace_id = params.workspace_id then
        Except.ok { db with
          af_collab := db.af_collab.map (fun r =>
            if r.oid == params.object_id then
              { r with
                blob := params.encoded_collab_v1,
                len := Int.ofNat params.encoded_collab_v1.length,
                partition_key := partition_key,
                encrypt := encrypt,
                owner_uid := uid }
            else r) }
      else
        Except.error (AppError.Internal
          "Inserting a row with an existing object_id but different workspace_id")
  | none =>
      let permission_id := db.owner_permission_id
      Except.ok { db with
        af_collab_member := upsertMember db.af_collab_member uid params.object_id permission_id,
        af_collab := db.af_collab ++
          [⟨params.object_id, params.encoded_collab_v1,
            Int.ofNat params.encoded_collab_v1.length, partition_key, encrypt, uid,
            params.workspace_id⟩] }

/-! ## The snapshot store (`collab_db_ops.rs`) -/

/-- A row of the `af_collab_snapshot` table; `sid` is the serial key and
`created_at` the server-assigned creation timestamp. -/
structure AFSnapshotRow where
  sid : Nat
  oid : String
  blob : List Nat
  len : Int
  encrypt : Int
  workspace_id : Uuid
  created_at : Nat
deriving DecidableEq, Repr

/-- What `create_snapshot_and_maintain_limit` returns
(`RETURNING sid AS snapshot_id, oid AS object_id, created_at`). -/
structure AFSnapshotMeta where
  snapshot_id : Nat
  object_id : String
  created_at : Nat
deriving DecidableEq, Repr

/-- The serial (`bigserial`) key the insert assigns: one larger than every
sid already in the table. -/
def nextSid (t : List AFSnapshotRow) : Nat :=
  (t.map (fun r => r.sid)).foldr Nat.max 0 + 1

/-- The row the `INSERT INTO af_collab_snapshot` statement adds: the given
object, blob, blob length, encrypt 0, workspace-id, and the server-assigned
creation time `now`. -/
def newSnapshotRow (t : List AFSnapshotRow) (now : Nat) (oid : String)
    (encoded_collab_v1 : List Nat) (workspace_id : Uuid) : AFSnapshotRow :=
  ⟨nextSid t, oid, encoded_collab_v1, Int.ofNat encoded_collab_v1.length, 0,
   workspace_id, now⟩

/-- `ORDER BY created_at DESC`: most recent first. SQL leaves the relative
order of equal timestamps unspecified; the embedding fixes one admissible
order (stable insertion sort). -/
def sortByCreatedDesc (l : List AFSnapshotRow) : List AFSnapshotRow :=
  l.insertionSort (fun a b => b.created_at ≤ a.created_at)

/-- `create_snapshot_and_maintain_limit`: within one transaction, insert the
new snapshot row, then delete every row of the object whose sid is not among
the `snapshot_limit` most recent by creation time
(`DELETE .. WHERE oid = $1 AND sid NOT IN (SELECT sid .. ORDER BY created_at
DESC LIMIT $2)`). The limit is a `Nat`: the source passes a positive `i64`
cap (a negative SQL LIMIT would be rejected by the database). -/
def create_snapshot_and_maintain_limit (t : List AFSnapshotRow) (now : Nat) (oid : String)
    (encoded_collab_v1 : List Nat) (workspace_id : Uuid) (snapshot_limit : Nat) :
    List AFSnapshotRow × AFSnapshotMeta :=
  let newRow := newSnapshotRow t now oid encoded_collab_v1 workspace_id
  let t1 := t ++ [newRow]
  let keepSids :=
    ((sortByCreatedDesc (t1.filter (fun r => r.oid == oid))).take snapshot_limit).map
      (fun r => r.sid)
  let t2 := t1.filter (fun r => !(r.oid == oid && !(keepSids.contains r.sid)))
  (t2, ⟨newRow.sid, oid, now⟩)

/-! ## Concrete inputs used by witnesses and counterexamples -/

/-- A registry of seven groups, all of them long inactive at time 601. -/
def sevenInactiveGroups : List (String × GroupState) :=
  [("g1", ⟨CollabType.Document, 0, [], []⟩),
   ("g2", ⟨CollabType.Document, 0, [], []⟩),
   ("g3", ⟨CollabType.Document, 0, [], []⟩),
   ("g4", ⟨CollabType.Document, 0, [], []⟩),
   ("g5", ⟨CollabType.Document, 0, [], []⟩),
   ("g6", ⟨CollabType.Document, 0, [], []⟩),
   ("g7", ⟨CollabType.Document, 0, [], []⟩)]

/-- A group with one existing subscriber, used to witness subscription. -/
def wGroup : GroupState :=
  { collab_type := CollabType.Document,
    modified_at := 0,
    subscribers := [(⟨7, "devA", 1⟩, ⟨100, false⟩)],
    user_by_user_device := [((7, "devA"), ⟨7, "devA", 1⟩)] }

/-- A reconnecting user on the same uid and device as `wGroup`'s subscriber. -/
def wUser : RtUser :=
  ⟨7, "devA", 2⟩

/-- The fresh subscription `wUser` brings. -/
def wSub : Subscription :=
  ⟨200, false⟩

/-- A two-row snapshot table for one object, used to witness the cap. -/
def wSnapshots : List AFSnapshotRow :=
  [⟨1, "objA", [1], 1, 0, 9, 10⟩,
   ⟨2, "objA", [2], 1, 0, 9, 20⟩]

/-- A short run of sink operations used to witness msg-id monotonicity. -/
def wOps : List SinkOp :=
  [SinkOp.msg (fun _ => ⟨ClientMsgKind.updateSync, [1]⟩),
   SinkOp.msg (fun _ => ⟨ClientMsgKind.awareness, [2]⟩),
   SinkOp.initSync (fun _ => ⟨ClientMsgKind.initSync, [3]⟩),
   SinkOp.initSync (fun _ => ⟨ClientMsgKind.initSync, [4]⟩),
   SinkOp.msg (fun _ => ⟨ClientMsgKind.updateSync, [5]⟩)]

/-- The subscriber-map consistency a group maintains: every subscriber's
user-device is registered in the per-device map and points back to that
subscriber, and the subscriber map holds at most one entry per user. -/
def GroupState.deviceConsistent (g : GroupState) : Prop :=
  (∀ e ∈ g.subscribers, mapLookup e.1.user_device g.user_by_user_device = some e.1) ∧
  g.subscribers.Pairwise (fun a b => a.1 ≠ b.1)

/-! # Theorems -/

/-- C5: the ack timeout chosen by the sink runner is the configured default
for payloads of 0 to 40959 bytes, 10 s for 40960 to 1048576 bytes, 20 s for
1048577 to 2097152 bytes, 50 s for 2097153 to 4194304 bytes and 160 s for
anything larger; each threshold boundary selects the corresponding row. -/
theorem calculate_timeout_table (d : Duration) :
    (∀ k : Fin 40960, calculate_timeout k.val d = d) ∧
    (∀ k : Fin 1007617, calculate_timeout (40960 + k.val) d = Duration.from_secs 10) ∧
    (∀ k : Fin 1048576, calculate_timeout (1048577 + k.val) d = Duration.from_secs 20) ∧
    (∀ k : Fin 2097152, calculate_timeout (2097153 + k.val) d = Duration.from_secs 50) ∧
    (∀ k : Nat, calculate_timeout (4194305 + k) d = Duration.from_secs 160) ∧
    (calculate_timeout 40959 d = d ∧ calculate_timeout 40960 d = Duration.from_secs 10) ∧
    (calculate_timeout 1048576 d = Duration.from_secs 10 ∧
      calculate_timeout 1048577 d = Duration.from_secs 20) ∧
    (calculate_timeout 2097152 d = Duration.from_secs 20 ∧
      calculate_timeout 2097153 d = Duration.from_secs 50) ∧
    (calculate_timeout 4194304 d = Duration.from_secs 50 ∧
      calculate_timeout 4194305 d = Duration.from_secs 160) := by
  refine ⟨fun k => ?_, fun k => ?_, fun k => ?_, fun k => ?_, fun k => ?_,
    ⟨?_, ?_⟩, ⟨?_, ?_⟩, ⟨?_, ?_⟩, ⟨?_, ?_⟩⟩
  · have hk := k.isLt
    unfold calculate_timeout
    split_ifs <;> first | rfl | omega
  · have hk := k.isLt
    unfold calculate_timeout
    split_ifs <;> first | rfl | omega
  · have hk := k.isLt
    unfold calculate_timeout
    split_ifs <;> first | rfl | omega
  · have hk := k.isLt
    unfold calculate_timeout
    split_ifs <;> first | rfl | omega
  · unfold calculate_timeout
    split_ifs <;> first | rfl | omega
  · unfold calculate_timeout
    split_ifs <;> first | rfl | omega
  · unfold calculate_timeout
    split_ifs <;> first | rfl | omega
  · unfold calculate_timeout
    split_ifs <;> first | rfl | omega
  · unfold calculate_timeout
    split_ifs <;> first | rfl | omega
  · unfold calculate_timeout
    split_ifs <;> first | rfl | omega
  · unfold calculate_timeout
    split_ifs <;> first | rfl | omega
  · unfold calculate_timeout
    split_ifs <;> first | rfl | omega
  · unfold calculate_timeout
    split_ifs <;> first | rfl | omega

/-- C2: `queue_init_sync` is a no-op when the head of the queue is already an
Init message; otherwise it clears all pending messages and enqueues exactly
the freshly built Init message under the allocated msg-id, so afterwards the
queue contains no pending non-Init message; and `can_queue_init_sync` is
true iff the head is not an Init message. -/
theorem queue_init_sync_spec (s : CollabSink) (f : Nat → ClientCollabMessage) :
    (s.can_queue_init_sync = false → s.queue_init_sync f = s) ∧
    (s.can_queue_init_sync = true →
      (s.queue_init_sync f).queue =
          [⟨f s.msg_id_counter, s.msg_id_counter, MessageState.pending⟩] ∧
        (s.queue_init_sync f).msg_id_counter = (s.msg_id_counter + 1) % u64Bound) ∧
    (s.can_queue_init_sync = true → (∀ id, (f id).is_init_msg = true) →
      ∀ p ∈ (s.queue_init_sync f).queue, p.msg.is_init_msg = true) ∧
    (s.can_queue_init_sync = true ↔
      ∀ p, SinkQueue.peek s.queue = some p → p.msg.is_init_msg = false) := by
  obtain ⟨u, c, q⟩ := s
  cases q with
  | nil =>
      refine ⟨?_, ?_, ?_, ?_⟩ <;>
        simp [CollabSink.can_queue_init_sync, CollabSink.queue_init_sync, SinkQueue.peek,
          SinkQueue.clear, SinkQueue.push_msg, SinkQueue.insertByPriority,
          DefaultMsgIdCounter.next] <;>
        exact fun h => h c
  | cons p rest =>
      by_cases hinit : p.msg.is_init_msg
      · refine ⟨?_, ?_, ?_, ?_⟩ <;>
          simp [CollabSink.can_queue_init_sync, CollabSink.queue_init_sync, SinkQueue.peek,
            hinit]
      · refine ⟨?_, ?_, ?_, ?_⟩ <;>
          simp [CollabSink.can_queue_init_sync, CollabSink.queue_init_sync, SinkQueue.peek,
            SinkQueue.clear, SinkQueue.push_msg, SinkQueue.insertByPriority,
            DefaultMsgIdCounter.next, hinit] <;>
          exact fun h => h c

/-- C3: `ack_msg` marks the head message Done and reports success exactly
when the head's msg-id equals the acked msg-id and the head's state is
Processing; a matching msg-id whose head is not Processing, a mismatched
msg-id, or an empty queue leaves the queue unchanged and reports failure. -/
theorem ack_msg_spec (s : CollabSink) (id : Nat) :
    (∀ p rest, s.queue = p :: rest → p.msg_id = id →
      p.state = MessageState.processing →
      s.ack_msg (ServerCollabMessage.ack id) =
        ({ s with queue := { p with state := MessageState.done } :: rest }, true)) ∧
    (∀ p rest, s.queue = p :: rest → p.msg_id = id →
      p.state ≠ MessageState.processing →
      s.ack_msg (ServerCollabMessage.ack id) = (s, false)) ∧
    (∀ p rest, s.queue = p :: rest → p.msg_id ≠ id →
      s.ack_msg (ServerCollabMessage.ack id) = (s, false)) ∧
    (s.queue = [] → s.ack_msg (ServerCollabMessage.ack id) = (s, false)) := by
  obtain ⟨u, c, q⟩ := s
  refine ⟨?_, ?_, ?_, ?_⟩
  · rintro p rest rfl hid hst
    obtain ⟨pm, pid, pst⟩ := p
    simp only at hid hst
    subst hid
    subst hst
    simp [CollabSink.ack_msg, ServerCollabMessage.msg_id, PendingMessage.set_state]
  · rintro p rest rfl hid hst
    obtain ⟨pm, pid, pst⟩ := p
    simp only at hid hst
    subst hid
    cases pst <;>
      simp_all [CollabSink.ack_msg, ServerCollabMessage.msg_id, PendingMessage.set_state]
  · rintro p rest rfl hid
    obtain ⟨pm, pid, pst⟩ := p
    simp only at hid
    simp [CollabSink.ack_msg, ServerCollabMessage.msg_id, hid]
  · rintro rfl
    simp [CollabSink.ack_msg, ServerCollabMessage.msg_id]

/-- C10: `ack_msg` on a server message that carries no msg-id (a broadcast
or an awareness message) returns true with the queue untouched, and on a
msg-id-carrying message with an empty queue returns false with the queue
untouched. -/
theorem ack_msg_edge_spec (s : CollabSink) (m : ServerCollabMessage) :
    (m.msg_id = none → s.ack_msg m = (s, true)) ∧
    (∀ id, m.msg_id = some id → s.queue = [] → s.ack_msg m = (s, false)) := by
  constructor
  · intro hnone
    unfold CollabSink.ack_msg
    rw [hnone]
  · intro id hid hq
    unfold CollabSink.ack_msg
    rw [hid, hq]

/-- Each sink operation either allocates nothing and leaves the sink as it
was, or allocates exactly the current counter value and advances the
counter by one modulo the `u64` bound. -/
theorem sinkStep_alloc (s : CollabSink) (op : SinkOp) :
    ((sinkStep s op).2 = [] ∧ (sinkStep s op).1 = s) ∨
    ((sinkStep s op).2 = [s.msg_id_counter] ∧
      (sinkStep s op).1.msg_id_counter = (s.msg_id_counter + 1) % u64Bound) := by
  cases op with
  | msg f =>
      right
      constructor
      · simp [sinkStep]
      · simp [sinkStep, CollabSink.queue_msg, DefaultMsgIdCounter.next]
  | initSync f =>
      obtain ⟨u, c, q⟩ := s
      cases q with
      | nil =>
          right
          constructor
          · simp [sinkStep, CollabSink.can_queue_init_sync, SinkQueue.peek]
          · simp [sinkStep, CollabSink.queue_init_sync, SinkQueue.peek,
              DefaultMsgIdCounter.next]
      | cons p rest =>
          by_cases hinit : p.msg.is_init_msg
          · left
            constructor
            · simp [sinkStep, CollabSink.can_queue_init_sync, SinkQueue.peek, hinit]
            · simp [sinkStep, CollabSink.queue_init_sync, SinkQueue.peek, hinit]
          · right
            constructor
            · simp [sinkStep, CollabSink.can_queue_init_sync, SinkQueue.peek, hinit]
            · simp [sinkStep, CollabSink.queue_init_sync, SinkQueue.peek, hinit,
                DefaultMsgIdCounter.next]

/-- As long as the counter cannot wrap during the run, the allocated msg-ids
are strictly increasing and bounded below by the starting counter. -/
theorem sinkTrace_pairwise_aux (ops : List SinkOp) : ∀ s : CollabSink,
    s.msg_id_counter + ops.length ≤ u64Bound →
    List.Pairwise (fun a b => a < b) (sinkTrace s ops) ∧
    (∀ i ∈ sinkTrace s ops, s.msg_id_counter ≤ i) := by
  induction ops with
  | nil =>
      intro s _
      simp [sinkTrace]
  | cons op ops ih =>
      intro s h
      have hlen : s.msg_id_counter + ops.length + 1 ≤ u64Bound := by
        simpa [Nat.add_comm, Nat.add_left_comm] using h
      rcases sinkStep_alloc s op with ⟨h2, h1⟩ | ⟨h2, h1⟩
      · have hrec := ih s (by omega)
        have htr : sinkTrace s (op :: ops) = sinkTrace s ops := by
          rw [sinkTrace, h2, h1]
          simp
        rw [htr]
        exact hrec
      · by_cases hlt : s.msg_id_counter + 1 < u64Bound
        · have hc : (sinkStep s op).1.msg_id_counter = s.msg_id_counter + 1 := by
            rw [h1, Nat.mod_eq_of_lt hlt]
          have hrec := ih (sinkStep s op).1 (by rw [hc]; omega)
          have htr : sinkTrace s (op :: ops) =
              s.msg_id_counter :: sinkTrace (sinkStep s op).1 ops := by
            rw [sinkTrace, h2]
            simp
          rw [htr]
          constructor
          · refine List.Pairwise.cons ?_ hrec.1
            intro b hb
            have hbge := hrec.2 b hb
            rw [hc] at hbge
            omega
          · intro i hi
            rcases List.mem_cons.mp hi with hic | hirest
            · omega
            · have := hrec.2 i hirest
              rw [hc] at this
              omega
        · have hops : ops = [] := by
            cases ops with
            | nil => rfl
            | cons o os => exfalso; simp [List.length_cons] at h; omega
          subst hops
          have htr : sinkTrace s [op] = [s.msg_id_counter] := by
            rw [sinkTrace, h2]
            simp [sinkTrace]
          rw [htr]
          constructor
          · simp
          · intro i hi
            simp at hi
            omega

/-- C4: across a sink's lifetime (any run of enqueue and enqueue-init
operations from a fresh sink, within the capacity of the 64-bit counter),
every enqueued message takes its msg-id from the sink's counter and the
sequence of allocated msg-ids is strictly increasing. -/
theorem sink_msg_ids_strictly_increasing (uid : Int) (ops : List SinkOp)
    (h : ops.length ≤ u64Bound) :
    List.Pairwise (fun a b => a < b) (sinkTrace (CollabSink.new uid) ops) :=
  (sinkTrace_pairwise_aux ops (CollabSink.new uid)
    (by simpa [CollabSink.new] using h)).1

/-- C4 witness: a concrete five-operation run from a fresh sink. -/
theorem sink_msg_ids_strictly_increasing_witness :
    List.Pairwise (fun a b => a < b) (sinkTrace (CollabSink.new 7) wOps) :=
  sink_msg_ids_strictly_increasing 7 wOps (by simp [wOps, u64Bound])

/-- Everything the tick scan collects beyond its accumulator is the id of an
inactive group of the registry. -/
theorem collectInactive_sound (now : Nat) :
    ∀ (l : List (String × GroupState)) (acc : List String) (x : String),
      x ∈ collectInactive now l acc →
      x ∈ acc ∨ ∃ g, (x, g) ∈ l ∧ g.is_inactive now = true := by
  intro l
  induction l with
  | nil =>
      intro acc x hx
      left
      simpa [collectInactive] using hx
  | cons e rest ih =>
      intro acc x hx
      cases hin : e.2.is_inactive now with
      | false =>
          simp only [collectInactive, hin, Bool.false_eq_true, if_false] at hx
          rcases ih acc x hx with h | ⟨g, hg, hgin⟩
          · left; exact h
          · right; exact ⟨g, List.mem_cons_of_mem _ hg, hgin⟩
      | true =>
          simp only [collectInactive, hin, if_true] at hx
          by_cases hlen : (acc ++ [e.1]).length > 5
          · rw [if_pos hlen] at hx
            rcases List.mem_append.mp hx with h | h
            · left; exact h
            · right
              refine ⟨e.2, ?_, hin⟩
              have hx1 : x = e.1 := List.mem_singleton.mp h
              rw [hx1]
              exact List.mem_cons_self _ _
          · rw [if_neg hlen] at hx
            rcases ih (acc ++ [e.1]) x hx with h | ⟨g, hg, hgin⟩
            · rcases List.mem_append.mp h with h1 | h1
              · left; exact h1
              · right
                refine ⟨e.2, ?_, hin⟩
                have hx1 : x = e.1 := List.mem_singleton.mp h1
                rw [hx1]
                exact List.mem_cons_self _ _
            · right; exact ⟨g, List.mem_cons_of_mem _ hg, hgin⟩

/-- When at most six groups are inactive, the tick scan is never truncated:
it collects exactly the inactive groups, in registry order. -/
theorem collectInactive_complete (now : Nat) :
    ∀ (l : List (String × GroupState)) (acc : List String),
      acc.length + l.countP (fun e => e.2.is_inactive now) ≤ 6 →
      collectInactive now l acc =
        acc ++ (l.filter (fun e => e.2.is_inactive now)).map (fun e => e.1) := by
  intro l
  induction l with
  | nil =>
      intro acc _
      simp [collectInactive]
  | cons e rest ih =>
      intro acc h
      cases hin : e.2.is_inactive now with
      | false =>
          have hcnt : (e :: rest).countP (fun e => e.2.is_inactive now) =
              rest.countP (fun e => e.2.is_inactive now) := by
            simp [List.countP_cons, hin]
          rw [hcnt] at h
          simp only [collectInactive, hin, Bool.false_eq_true, if_false]
          rw [ih acc h]
          simp [List.filter_cons, hin]
      | true =>
          have hcnt : (e :: rest).countP (fun e => e.2.is_inactive now) =
              rest.countP (fun e => e.2.is_inactive now) + 1 := by
            simp [List.countP_cons, hin]
          rw [hcnt] at h
          simp only [collectInactive, hin, if_true]
          by_cases hlen : (acc ++ [e.1]).length > 5
          · have hlen2 : acc.length + 1 > 5 := by simpa using hlen
            have hrest : rest.countP (fun e => e.2.is_inactive now) = 0 := by omega
            have hfil : rest.filter (fun e => e.2.is_inactive now) = [] := by
              rw [List.filter_eq_nil_iff]
              intro a ha
              have := List.countP_eq_zero.mp hrest a ha
              simpa using this
            rw [if_pos hlen]
            simp [List.filter_cons, hin, hfil]
          · rw [if_neg hlen]
            have hlen2 : (acc ++ [e.1]).length +
                rest.countP (fun e => e.2.is_inactive now) ≤ 6 := by
              simp only [List.length_append, List.length_singleton]
              omega
            rw [ih (acc ++ [e.1]) hlen2]
            simp [List.filter_cons, hin]

/-- The tick scan never collects more than six ids. -/
theorem collectInactive_length_le (now : Nat) :
    ∀ (l : List (String × GroupState)) (acc : List String),
      acc.length ≤ 5 → (collectInactive now l acc).length ≤ 6 := by
  intro l
  induction l with
  | nil =>
      intro acc h
      simp only [collectInactive]
      omega
  | cons e rest ih =>
      intro acc h
      cases hin : e.2.is_inactive now with
      | false =>
          simp only [collectInactive, hin, Bool.false_eq_true, if_false]
          exact ih acc h
      | true =>
          simp only [collectInactive, hin, if_true]
          by_cases hlen : (acc ++ [e.1]).length > 5
          · rw [if_pos hlen]
            simp only [List.length_append, List.length_singleton]
            omega
          · rw [if_neg hlen]
            exact ih (acc ++ [e.1]) (by simp only [List.length_append,
              List.length_singleton] at hlen ⊢; omega)

/-- C6: a group is inactive exactly when the elapsed seconds since its last
modification exceed its kind timeout — 10 minutes for Document, 60 minutes
for Database and DatabaseRow, 120 minutes for WorkspaceDatabase, Folder and
UserAwareness — and a sweeper tick removes only inactive groups, removing
exactly the inactive ones whenever the scan is not truncated by its
per-tick bound. -/
theorem group_inactivity_spec (g : GroupState) (now : Nat)
    (reg : List (String × GroupState)) (oid : String) :
    (g.is_inactive now = true ↔
      now - g.modified_at >
        (match g.collab_type with
          | CollabType.Document => 600
          | CollabType.Database => 3600
          | CollabType.DatabaseRow => 3600
          | CollabType.WorkspaceDatabase => 7200
          | CollabType.Folder => 7200
          | CollabType.UserAwareness => 7200)) ∧
    (oid ∈ tickRemoved reg now → ∃ g2, (oid, g2) ∈ reg ∧ g2.is_inactive now = true) ∧
    (reg.countP (fun e => e.2.is_inactive now) ≤ 6 →
      (oid ∈ tickRemoved reg now ↔
        ∃ g2, (oid, g2) ∈ reg ∧ g2.is_inactive now = true)) := by
  refine ⟨?_, ?_, ?_⟩
  · obtain ⟨ct, ma, subs, devs⟩ := g
    cases ct <;> (simp [GroupState.is_inactive, GroupState.timeout_secs]; try omega)
  · intro hx
    rcases collectInactive_sound now reg [] oid hx with h | h
    · simp at h
    · exact h
  · intro hcount
    constructor
    · intro hx
      rcases collectInactive_sound now reg [] oid hx with h | h
      · simp at h
      · exact h
    · rintro ⟨g2, hg2, hg2in⟩
      unfold tickRemoved
      rw [collectInactive_complete now reg [] (by simpa using hcount)]
      simp only [List.nil_append]
      exact List.mem_map.mpr ⟨(oid, g2), List.mem_filter.mpr ⟨hg2, by simp [hg2in]⟩, rfl⟩

/-- C7 counterexample: a registry of seven inactive Document groups at time
601 — a single tick removes six of them, not at most five. -/
theorem tick_bound_counterexample :
    ¬ ((tickRemoved sevenInactiveGroups 601).length ≤ 5) := by decide

/-- C7 (amended): a single invocation of the periodic tick removes at most
six groups, regardless of how many are inactive. -/
theorem tick_removes_at_most_six (reg : List (String × GroupState)) (now : Nat) :
    (tickRemoved reg now).length ≤ 6 :=
  collectInactive_length_le now reg [] (by simp)


theorem mapLookup_cons {κ β : Type} [DecidableEq κ] (k : κ) (e : κ × β)
    (rest : List (κ × β)) :
    mapLookup k (e :: rest) = if e.1 = k then some e.2 else mapLookup k rest := rfl

theorem mapLookup_cons_self {κ β : Type} [DecidableEq κ] (k : κ) (v : β) (m : List (κ × β)) :
    mapLookup k ((k, v) :: m) = some v := by
  rw [mapLookup_cons, if_pos rfl]

theorem mapErase_mem {κ β : Type} [DecidableEq κ] {k : κ} {m : List (κ × β)} {e : κ × β}
    (h : e ∈ mapErase k m) : e ∈ m ∧ e.1 ≠ k := by
  have h2 := List.mem_filter.mp h
  exact ⟨h2.1, by simpa using h2.2⟩

theorem mapErase_sublist {κ β : Type} [DecidableEq κ] (k : κ) (m : List (κ × β)) :
    (mapErase k m).Sublist m :=
  List.filter_sublist m

theorem mapErase_cons_pos {κ β : Type} [DecidableEq κ] {k : κ} {e : κ × β}
    (rest : List (κ × β)) (h : e.1 = k) :
    mapErase k (e :: rest) = mapErase k rest := by
  simp [mapErase, List.filter_cons, h]

theorem mapErase_cons_neg {κ β : Type} [DecidableEq κ] {k : κ} {e : κ × β}
    (rest : List (κ × β)) (h : e.1 ≠ k) :
    mapErase k (e :: rest) = e :: mapErase k rest := by
  simp [mapErase, List.filter_cons, h]

theorem mapLookup_erase_ne {κ β : Type} [DecidableEq κ] {k k2 : κ} (m : List (κ × β))
    (h : k ≠ k2) : mapLookup k (mapErase k2 m) = mapLookup k m := by
  induction m with
  | nil => rfl
  | cons e rest ih =>
      by_cases he : e.1 = k2
      · have hek : e.1 ≠ k := by rw [he]; exact Ne.symm h
        rw [mapErase_cons_pos rest he, ih, mapLookup_cons, if_neg hek]
      · rw [mapErase_cons_neg rest he]
        by_cases hek : e.1 = k
        · rw [mapLookup_cons, if_pos hek, mapLookup_cons, if_pos hek]
        · rw [mapLookup_cons, if_neg hek, mapLookup_cons, if_neg hek, ih]

/-- C8: subscribing preserves the subscriber-map consistency, leaves at most
one subscriber per (uid, device-id) pair, points the per-device map at the
newly subscribed user, registers the new subscription, evicts any previous
subscriber of the same user-device, and returns that older subscription
stopped. -/
theorem subscribe_unique_per_device (g : GroupState) (user : RtUser) (sub : Subscription)
    (hinv : g.deviceConsistent) :
    (g.subscribe user sub).1.deviceConsistent ∧
    (g.subscribe user sub).1.subscribers.Pairwise
      (fun a b => a.1.user_device ≠ b.1.user_device) ∧
    mapLookup user.user_device (g.subscribe user sub).1.user_by_user_device = some user ∧
    mapLookup user (g.subscribe user sub).1.subscribers = some sub ∧
    (∀ e ∈ (g.subscribe user sub).1.subscribers,
      e.1.user_device = user.user_device → e.1 = user) ∧
    (∀ old osub, mapLookup user.user_device g.user_by_user_device = some old →
      mapLookup old g.subscribers = some osub →
      (g.subscribe user sub).2 = some osub.stop ∧ (osub.stop).stopped = true) := by
  obtain ⟨hpt, hkeys⟩ := hinv
  rcases hlook : mapLookup user.user_device g.user_by_user_device with _ | old
  · -- No previous owner of this user-device.
    have hdev : ∀ e ∈ mapErase user g.subscribers,
        e.1.user_device ≠ user.user_device := by
      intro e he heq
      have hmem := (mapErase_mem he).1
      have hp := hpt e hmem
      rw [heq, hlook] at hp
      exact Option.noConfusion hp
    have hq : g.subscribe user sub =
        ({ g with
           subscribers := (user, sub) :: mapErase user g.subscribers,
           user_by_user_device :=
             (user.user_device, user) ::
               mapErase user.user_device g.user_by_user_device }, none) := by
      simp only [GroupState.subscribe, hlook]
    rw [hq]
    refine ⟨⟨?_, ?_⟩, ?_, ?_, ?_, ?_, ?_⟩
    · intro e he
      rcases List.mem_cons.mp he with rfl | hm
      · exact mapLookup_cons_self _ _ _
      · have hne := hdev e hm
        have hne2 : (user.user_device, user).1 ≠ e.1.user_device :=
          fun hd => hne hd.symm
        rw [mapLookup_cons, if_neg hne2, mapLookup_erase_ne _ hne]
        exact hpt e (mapErase_mem hm).1
    · refine List.Pairwise.cons ?_ ?_
      · intro e he hk
        exact (mapErase_mem he).2 hk.symm
      · exact hkeys.sublist (mapErase_sublist _ _)
    · refine List.Pairwise.cons ?_ ?_
      · intro e he hd
        exact hdev e he hd.symm
      · refine (hkeys.sublist (mapErase_sublist _ _)).imp_of_mem ?_
        intro a b ha hb hne heq
        have h1 := hpt a (mapErase_mem ha).1
        have h2 := hpt b (mapErase_mem hb).1
        rw [heq] at h1
        rw [h1] at h2
        exact hne (Option.some.inj h2)
    · exact mapLookup_cons_self _ _ _
    · exact mapLookup_cons_self _ _ _
    · intro e he heq
      rcases List.mem_cons.mp he with rfl | hm
      · rfl
      · exact absurd heq (hdev e hm)
    · intro old2 osub hlook2 _
      exact Option.noConfusion hlook2
  · -- A previous owner `old` of this user-device is evicted.
    have hdev : ∀ e ∈ mapErase user (mapErase old g.subscribers),
        e.1.user_device ≠ user.user_device := by
      intro e he heq
      have hmem1 := (mapErase_mem he).1
      have hold := (mapErase_mem hmem1).2
      have hmem := (mapErase_mem hmem1).1
      have hp := hpt e hmem
      rw [heq, hlook] at hp
      exact hold (Option.some.inj hp).symm
    have hq : g.subscribe user sub =
        ({ g with
           subscribers := (user, sub) :: mapErase user (mapErase old g.subscribers),
           user_by_user_device :=
             (user.user_device, user) ::
               mapErase user.user_device
                 (mapErase user.user_device g.user_by_user_device) },
         Option.map Subscription.stop (mapLookup old g.subscribers)) := by
      simp only [GroupState.subscribe, hlook]
    rw [hq]
    have hsubl : (mapErase user (mapErase old g.subscribers)).Sublist g.subscribers :=
      (mapErase_sublist _ _).trans (mapErase_sublist _ _)
    refine ⟨⟨?_, ?_⟩, ?_, ?_, ?_, ?_, ?_⟩
    · intro e he
      rcases List.mem_cons.mp he with rfl | hm
      · exact mapLookup_cons_self _ _ _
      · have hne := hdev e hm
        have hne2 : (user.user_device, user).1 ≠ e.1.user_device :=
          fun hd => hne hd.symm
        rw [mapLookup_cons, if_neg hne2, mapLookup_erase_ne _ hne,
          mapLookup_erase_ne _ hne]
        exact hpt e (hsubl.subset hm)
    · refine List.Pairwise.cons ?_ ?_
      · intro e he hk
        exact (mapErase_mem he).2 hk.symm
      · exact hkeys.sublist hsubl
    · refine List.Pairwise.cons ?_ ?_
      · intro e he hd
        exact hdev e he hd.symm
      · refine (hkeys.sublist hsubl).imp_of_mem ?_
        intro a b ha hb hne heq
        have h1 := hpt a (hsubl.subset ha)
        have h2 := hpt b (hsubl.subset hb)
        rw [heq] at h1
        rw [h1] at h2
        exact hne (Option.some.inj h2)
    · exact mapLookup_cons_self _ _ _
    · exact mapLookup_cons_self _ _ _
    · intro e he heq
      rcases List.mem_cons.mp he with rfl | hm
      · rfl
      · exact absurd heq (hdev e hm)
    · intro old2 osub hlook2 hsub2
      have hold : old2 = old := (Option.some.inj hlook2).symm
      subst hold
      constructor
      · show Option.map Subscription.stop (mapLookup old2 g.subscribers) = some osub.stop
        rw [hsub2]
        rfl
      · rfl

/-- C8 witness: a reconnect on the same uid and device evicts the previous
subscription of `wGroup` and registers the new one, stopped. -/
theorem subscribe_unique_per_device_witness :
    (wGroup.subscribe wUser wSub).1.deviceConsistent ∧
    mapLookup wUser.user_device (wGroup.subscribe wUser wSub).1.user_by_user_device =
      some wUser ∧
    (wGroup.subscribe wUser wSub).2 = some ⟨100, true⟩ := by
  have h := subscribe_unique_per_device wGroup wUser wSub
    (by constructor <;> simp [wGroup, mapLookup, RtUser.user_device])
  refine ⟨h.1, h.2.2.1, ?_⟩
  have h6 := h.2.2.2.2.2 ⟨7, "devA", 1⟩ ⟨100, false⟩
    (by simp [wGroup, wUser, mapLookup, RtUser.user_device])
    (by simp [wGroup, mapLookup])
  exact h6.1

theorem findCollab_map (f : AFCollabRow → AFCollabRow) (hf : ∀ r, (f r).oid = r.oid)
    (t : List AFCollabRow) (o : String) :
    findCollab (t.map f) o = (findCollab t o).map f := by
  induction t with
  | nil => rfl
  | cons r rest ih =>
      cases hpr : (r.oid == o) with
      | true =>
          have hfr : ((f r).oid == o) = true := by rw [hf r]; exact hpr
          simp only [findCollab, List.map_cons] at ih ⊢
          simp [List.find?_cons, hpr, hfr]
      | false =>
          have hfr : ((f r).oid == o) = false := by rw [hf r]; exact hpr
          simp only [findCollab, List.map_cons] at ih ⊢
          simp only [List.find?_cons, hpr, hfr]
          exact ih

theorem findCollab_append (t1 t2 : List AFCollabRow) (o : String) :
    findCollab (t1 ++ t2) o = (findCollab t1 o).or (findCollab t2 o) := by
  simp [findCollab, List.find?_append]

theorem upsertMember_mem (t : List AFCollabMemberRow) (uid : Int) (oid : String) (pid : Int) :
    ∃ m ∈ upsertMember t uid oid pid,
      m.uid = uid ∧ m.oid = oid ∧ m.permission_id = pid := by
  unfold upsertMember
  by_cases h : t.any (fun m => m.uid == uid && m.oid == oid) = true
  · rw [if_pos h]
    obtain ⟨m0, hm0, hcond⟩ := List.any_eq_true.mp h
    have hcond2 : m0.uid = uid ∧ m0.oid = oid := by simpa using hcond
    have huid : m0.uid = uid := hcond2.1
    have hoid : m0.oid = oid := hcond2.2
    refine ⟨{ m0 with permission_id := pid }, ?_, huid, hoid, rfl⟩
    exact List.mem_map.mpr ⟨m0, hm0, by simp [hcond]⟩
  · rw [if_neg h]
    exact ⟨⟨uid, oid, pid⟩,
      List.mem_append.mpr (Or.inr (List.mem_singleton.mpr rfl)), rfl, rfl, rfl⟩

/-- C1: inserting a collab whose object-id already has a persistent record
under a different workspace-id is an internal error (the transaction rolls
back, so neither table is written); a matching workspace-id updates the
existing row in place, leaving the member table and every other object
untouched; and an absent record inserts the new row together with an owner
membership row. -/
theorem insert_into_af_collab_spec (db : DbState) (uid : Int) (params : InsertCollabParams) :
    (∀ row, findCollab db.af_collab params.object_id = some row →
      row.workspace_id ≠ params.workspace_id →
      insert_into_af_collab db uid params =
        Except.error (AppError.Internal
          "Inserting a row with an existing object_id but different workspace_id")) ∧
    (∀ row, findCollab db.af_collab params.object_id = some row →
      row.workspace_id = params.workspace_id →
      ∃ db2, insert_into_af_collab db uid params = Except.ok db2 ∧
        db2.af_collab_member = db.af_collab_member ∧
        findCollab db2.af_collab params.object_id = some
          { row with
            blob := params.encoded_collab_v1,
            len := Int.ofNat params.encoded_collab_v1.length,
            partition_key := params.collab_type.value,
            encrypt := 0,
            owner_uid := uid } ∧
        (∀ o2, o2 ≠ params.object_id →
          findCollab db2.af_collab o2 = findCollab db.af_collab o2)) ∧
    (findCollab db.af_collab params.object_id = none →
      ∃ db2, insert_into_af_collab db uid params = Except.ok db2 ∧
        findCollab db2.af_collab params.object_id = some
          ⟨params.object_id, params.encoded_collab_v1,
            Int.ofNat params.encoded_collab_v1.length, params.collab_type.value, 0, uid,
            params.workspace_id⟩ ∧
        (∀ o2, o2 ≠ params.object_id →
          findCollab db2.af_collab o2 = findCollab db.af_collab o2) ∧
        db2.af_collab_member =
          upsertMember db.af_collab_member uid params.object_id db.owner_permission_id ∧
        (∃ m ∈ db2.af_collab_member,
          m.uid = uid ∧ m.oid = params.object_id ∧
            m.permission_id = db.owner_permission_id)) := by
  have hf : ∀ r : AFCollabRow,
      ((fun r => if r.oid == params.object_id then
        { r with
          blob := params.encoded_collab_v1,
          len := Int.ofNat params.encoded_collab_v1.length,
          partition_key := params.collab_type.value,
          encrypt := (0 : Int),
          owner_uid := uid } else r) r).oid = r.oid := by
    intro r
    by_cases h : (r.oid == params.object_id) = true <;> simp [h]
  refine ⟨?_, ?_, ?_⟩
  · intro row hfind hne
    simp only [insert_into_af_collab, hfind]
    rw [if_neg hne]
  · intro row hfind heq
    refine ⟨{ db with
        af_collab := db.af_collab.map (fun r =>
          if r.oid == params.object_id then
            { r with
              blob := params.encoded_collab_v1,
              len := Int.ofNat params.encoded_collab_v1.length,
              partition_key := params.collab_type.value,
              encrypt := 0,
              owner_uid := uid }
          else r) }, ?_, rfl, ?_, ?_⟩
    · simp only [insert_into_af_collab, hfind]
      rw [if_pos heq]
    · show findCollab (db.af_collab.map _) params.object_id = _
      rw [findCollab_map _ hf, hfind]
      have hfind2 : db.af_collab.find? (fun r => r.oid == params.object_id) =
          some row := hfind
      have hrow : row.oid = params.object_id := by
        simpa using List.find?_some hfind2
      simp [hrow]
    · intro o2 ho2
      show findCollab (db.af_collab.map _) o2 = _
      rw [findCollab_map _ hf]
      cases hfo : findCollab db.af_collab o2 with
      | none => rfl
      | some r =>
          have hfo2 : db.af_collab.find? (fun r => r.oid == o2) = some r := hfo
          have hro : r.oid = o2 := by
            simpa using List.find?_some hfo2
          have hneq : (r.oid == params.object_id) = false := by
            rw [hro]
            exact beq_eq_false_iff_ne.mpr ho2
          simp [hneq]
          intro h
          exact absurd h (by rw [hro]; exact ho2)
  · intro hfind
    refine ⟨{ db with
        af_collab_member :=
          upsertMember db.af_collab_member uid params.object_id db.owner_permission_id,
        af_collab := db.af_collab ++
          [⟨params.object_id, params.encoded_collab_v1,
            Int.ofNat params.encoded_collab_v1.length, params.collab_type.value, 0, uid,
            params.workspace_id⟩] }, ?_, ?_, ?_, rfl, ?_⟩
    · simp only [insert_into_af_collab, hfind]
    · show findCollab (db.af_collab ++ _) params.object_id = _
      rw [findCollab_append, hfind]
      simp [findCollab]
    · intro o2 ho2
      show findCollab (db.af_collab ++ _) o2 = _
      rw [findCollab_append]
      have h2 : (params.object_id == o2) = false :=
        beq_eq_false_iff_ne.mpr (Ne.symm ho2)
      have h3 : findCollab
          [(⟨params.object_id, params.encoded_collab_v1,
            Int.ofNat params.encoded_collab_v1.length, params.collab_type.value, 0, uid,
            params.workspace_id⟩ : AFCollabRow)] o2 = none := by
        simp [findCollab, h2]
      rw [h3]
      cases findCollab db.af_collab o2 <;> rfl
    · exact upsertMember_mem db.af_collab_member uid params.object_id db.owner_permission_id

theorem le_foldr_max (x : Nat) : ∀ l : List Nat, x ∈ l → x ≤ l.foldr Nat.max 0 := by
  intro l
  induction l with
  | nil =>
      intro h
      cases h
  | cons a rest ih =>
      intro h
      rcases List.mem_cons.mp h with rfl | hr
      · exact Nat.le_max_left _ _
      · exact le_trans (ih hr) (Nat.le_max_right _ _)

theorem sid_lt_nextSid {t : List AFSnapshotRow} {r : AFSnapshotRow} (h : r ∈ t) :
    r.sid < nextSid t := by
  have hm : r.sid ∈ t.map (fun r => r.sid) := List.mem_map.mpr ⟨r, h, rfl⟩
  have := le_foldr_max r.sid (t.map (fun r => r.sid)) hm
  unfold nextSid
  omega

theorem t1_map_sid_nodup (t : List AFSnapshotRow) (now : Nat) (oid : String)
    (blob : List Nat) (ws : Uuid) (hnodup : (t.map (fun r => r.sid)).Nodup) :
    ((t ++ [newSnapshotRow t now oid blob ws]).map (fun r => r.sid)).Nodup := by
  rw [List.map_append, List.nodup_append]
  refine ⟨hnodup, List.nodup_singleton _, ?_⟩
  intro a ha hb
  obtain ⟨r, hr, rfl⟩ := List.mem_map.mp ha
  have hlt := sid_lt_nextSid hr
  have hb2 : r.sid = (newSnapshotRow t now oid blob ws).sid := by simpa using hb
  rw [hb2] at hlt
  simp only [newSnapshotRow] at hlt
  omega

theorem sorted_sortByCreatedDesc (l : List AFSnapshotRow) :
    List.Pairwise (fun a b : AFSnapshotRow => b.created_at ≤ a.created_at)
      (sortByCreatedDesc l) := by
  haveI h1 : IsTotal AFSnapshotRow (fun a b : AFSnapshotRow => b.created_at ≤ a.created_at) :=
    ⟨fun a b => le_total b.created_at a.created_at⟩
  haveI h2 : IsTrans AFSnapshotRow (fun a b : AFSnapshotRow => b.created_at ≤ a.created_at) :=
    ⟨fun _ _ _ hab hbc => le_trans hbc hab⟩
  exact List.sorted_insertionSort _ l

theorem perm_sortByCreatedDesc (l : List AFSnapshotRow) :
    List.Perm (sortByCreatedDesc l) l :=
  List.perm_insertionSort _ l

theorem sortByCreatedDesc_append_newest (l : List AFSnapshotRow) (a : AFSnapshotRow)
    (h : ∀ x ∈ l, x.created_at < a.created_at) :
    sortByCreatedDesc (l ++ [a]) = a :: sortByCreatedDesc l := by
  induction l with
  | nil => rfl
  | cons x rest ih =>
      have hx := h x (List.mem_cons_self _ _)
      have hrest : ∀ y ∈ rest, y.created_at < a.created_at :=
        fun y hy => h y (List.mem_cons_of_mem _ hy)
      show List.insertionSort _ ((x :: rest) ++ [a]) = _
      rw [List.cons_append, List.insertionSort]
      rw [show List.insertionSort (fun a b => b.created_at ≤ a.created_at) (rest ++ [a]) =
        a :: sortByCreatedDesc rest from ih hrest]
      rw [List.orderedInsert, if_neg (by exact not_le.mpr hx)]
      rfl

/-- C9: a successful `create_snapshot_and_maintain_limit` inserts the new
snapshot and, in the same transaction, deletes every snapshot of the object
that is not among the `snapshot_limit` most recent by creation time: at most
`snapshot_limit` snapshots of the object remain, rows of other objects are
untouched, every pruned row is at least as old as every surviving row of the
object, and (when the limit is positive and the new row is strictly newest)
the freshly inserted snapshot survives. -/
theorem create_snapshot_and_maintain_limit_spec (t : List AFSnapshotRow) (now : Nat)
    (oid : String) (blob : List Nat) (ws : Uuid) (n : Nat)
    (hnodup : (t.map (fun r => r.sid)).Nodup) :
    ((create_snapshot_and_maintain_limit t now oid blob ws n).1.filter
      (fun r => r.oid == oid)).length ≤ n ∧
    (∀ r ∈ (create_snapshot_and_maintain_limit t now oid blob ws n).1,
      r.oid ≠ oid → r ∈ t) ∧
    (∀ r ∈ t, r.oid ≠ oid →
      r ∈ (create_snapshot_and_maintain_limit t now oid blob ws n).1) ∧
    (∀ r ∈ t ++ [newSnapshotRow t now oid blob ws], r.oid = oid →
      r ∉ (create_snapshot_and_maintain_limit t now oid blob ws n).1 →
      ∀ k ∈ (create_snapshot_and_maintain_limit t now oid blob ws n).1, k.oid = oid →
        r.created_at ≤ k.created_at) ∧
    ((∀ r ∈ t, r.created_at < now) → 1 ≤ n →
      newSnapshotRow t now oid blob ws ∈
        (create_snapshot_and_maintain_limit t now oid blob ws n).1) := by
  have hres : (create_snapshot_and_maintain_limit t now oid blob ws n).1 =
      (t ++ [newSnapshotRow t now oid blob ws]).filter (fun r =>
        !(r.oid == oid &&
          !((((sortByCreatedDesc ((t ++ [newSnapshotRow t now oid blob ws]).filter
            (fun r => r.oid == oid))).take n).map (fun r => r.sid)).contains r.sid))) := rfl
  rw [hres]
  set nr := newSnapshotRow t now oid blob ws with hnr
  set t1 := t ++ [nr] with ht1
  set srt := sortByCreatedDesc (t1.filter (fun r => r.oid == oid)) with hsrt
  set keepSids := ((srt.take n).map (fun r => r.sid)) with hksids
  have hnodup1 : (t1.map (fun r => r.sid)).Nodup :=
    t1_map_sid_nodup t now oid blob ws hnodup
  have hfnodup : ((t1.filter (fun r => r.oid == oid)).map (fun r => r.sid)).Nodup :=
    hnodup1.sublist ((List.filter_sublist _).map _)
  have hperm : List.Perm srt (t1.filter (fun r => r.oid == oid)) :=
    perm_sortByCreatedDesc _
  have hsrtnodup : (srt.map (fun r => r.sid)).Nodup :=
    ((hperm.map _).nodup_iff).mpr hfnodup
  have hsorted : List.Pairwise (fun a b : AFSnapshotRow => b.created_at ≤ a.created_at)
      srt := sorted_sortByCreatedDesc _
  refine ⟨?_, ?_, ?_, ?_, ?_⟩
  · -- the per-object cap
    have hcomb : ((t1.filter (fun r =>
        !(r.oid == oid && !(keepSids.contains r.sid)))).filter (fun r => r.oid == oid))
        = t1.filter (fun r => (r.oid == oid) && keepSids.contains r.sid) := by
      rw [List.filter_filter]
      refine List.filter_congr ?_
      intro a _
      cases ha : (a.oid == oid) <;> cases hc : (keepSids.contains a.sid) <;> simp [ha, hc]
    rw [hcomb]
    have hsubset : ((t1.filter (fun r =>
        (r.oid == oid) && keepSids.contains r.sid)).map (fun r => r.sid)) ⊆ keepSids := by
      intro a ha
      obtain ⟨r, hr, rfl⟩ := List.mem_map.mp ha
      have hcond := (List.mem_filter.mp hr).2
      have hps : r.oid = oid ∧ r.sid ∈ keepSids := by simpa using hcond
      exact hps.2
    have hnodup2 : ((t1.filter (fun r =>
        (r.oid == oid) && keepSids.contains r.sid)).map (fun r => r.sid)).Nodup :=
      hnodup1.sublist ((List.filter_sublist _).map _)
    have hlen := (hnodup2.subperm hsubset).length_le
    rw [List.length_map] at hlen
    have hk : keepSids.length ≤ n := by
      rw [hksids, List.length_map]
      exact List.length_take_le _ _
    omega
  · -- rows of other objects come from the old table
    intro r hr hro
    have hmem := (List.mem_filter.mp hr).1
    rcases List.mem_append.mp hmem with h | h
    · exact h
    · exfalso
      have hrnr : r = nr := List.mem_singleton.mp h
      rw [hrnr, hnr] at hro
      simp only [newSnapshotRow] at hro
      exact hro rfl
  · -- rows of other objects survive
    intro r hr hro
    refine List.mem_filter.mpr ⟨List.mem_append.mpr (Or.inl hr), ?_⟩
    have hb : (r.oid == oid) = false := beq_eq_false_iff_ne.mpr hro
    simp [hb]
  · -- every pruned row of the object is at least as old as every kept one
    intro r hrt1 hroid hrnot k hk hkoid
    have hrf : r ∈ t1.filter (fun r => r.oid == oid) :=
      List.mem_filter.mpr ⟨hrt1, by simp [hroid]⟩
    have hrs : r ∈ srt := (hperm.mem_iff).mpr hrf
    have hkmem := List.mem_filter.mp hk
    have hkc : k.sid ∈ keepSids := by
      have hc := hkmem.2
      have hpk : (k.oid == oid) = true := by simp [hkoid]
      rw [hpk] at hc
      simpa using hc
    obtain ⟨k2, hk2take, hk2sid⟩ := List.mem_map.mp hkc
    have hk2srt : k2 ∈ srt := List.mem_of_mem_take hk2take
    have hksrt : k ∈ srt :=
      (hperm.mem_iff).mpr (List.mem_filter.mpr ⟨hkmem.1, by simp [hkoid]⟩)
    have hkk2 : k2 = k := List.inj_on_of_nodup_map hsrtnodup hk2srt hksrt hk2sid
    have hrcont : keepSids.contains r.sid = false := by
      cases hv : keepSids.contains r.sid
      · rfl
      · exfalso
        apply hrnot
        refine List.mem_filter.mpr ⟨hrt1, ?_⟩
        have hpr : (r.oid == oid) = true := by simp [hroid]
        have hmm : r.sid ∈ keepSids := by simpa using hv
        simp [hpr, hmm]
    have hrtake : r ∉ srt.take n := by
      intro hrk
      have hm : r.sid ∈ keepSids := List.mem_map.mpr ⟨r, hrk, rfl⟩
      have hm2 : keepSids.contains r.sid = true := by simpa using hm
      rw [hrcont] at hm2
      exact Bool.noConfusion hm2
    have hrdrop : r ∈ srt.drop n := by
      have h0 : r ∈ srt.take n ++ srt.drop n := by
        rw [List.take_append_drop]
        exact hrs
      rcases List.mem_append.mp h0 with h | h
      · exact absurd h hrtake
      · exact h
    have hpair : List.Pairwise (fun a b : AFSnapshotRow => b.created_at ≤ a.created_at)
        (srt.take n ++ srt.drop n) := by
      rw [List.take_append_drop]
      exact hsorted
    have hge := (List.pairwise_append.mp hpair).2.2 k2 hk2take r hrdrop
    rw [hkk2] at hge
    exact hge
  · -- the freshly inserted snapshot survives a positive limit
    intro hlt hn
    have hfeq : t1.filter (fun r => r.oid == oid) =
        t.filter (fun r => r.oid == oid) ++ [nr] := by
      rw [ht1, List.filter_append]
      simp [hnr, newSnapshotRow]
    have hsrteq : srt = nr :: sortByCreatedDesc (t.filter (fun r => r.oid == oid)) := by
      rw [hsrt, hfeq]
      refine sortByCreatedDesc_append_newest _ _ ?_
      intro x hx
      have hxt : x ∈ t := (List.mem_filter.mp hx).1
      have := hlt x hxt
      simpa [hnr, newSnapshotRow] using this
    have hinkeep : nr.sid ∈ keepSids := by
      rw [hksids, hsrteq]
      cases n with
      | zero => omega
      | succ m =>
          simp [List.take_succ_cons]
    refine List.mem_filter.mpr ⟨?_, ?_⟩
    · exact List.mem_append.mpr (Or.inr (List.mem_singleton.mpr rfl))
    · have hp : (nr.oid == oid) = true := by simp [hnr, newSnapshotRow]
      simp [hp, hinkeep]

/-- C9 witness: with a cap of one on a concrete two-row table, at most one
snapshot of the object remains and it is the freshly inserted, newest one. -/
theorem create_snapshot_and_maintain_limit_witness :
    ((create_snapshot_and_maintain_limit wSnapshots 30 "objA" [3] 9 1).1.filter
      (fun r => r.oid == "objA")).length ≤ 1 ∧
    newSnapshotRow wSnapshots 30 "objA" [3] 9 ∈
      (create_snapshot_and_maintain_limit wSnapshots 30 "objA" [3] 9 1).1 := by
  have h := create_snapshot_and_maintain_limit_spec wSnapshots 30 "objA" [3] 9 1 (by decide)
  exact ⟨h.1, h.2.2.2.2 (by decide) (by decide)⟩
